import Mathlib

/-!
# photo-groove: the `range-slider` custom element (`src/slider.js`)

The source is one class, `RangeSlider`, with one lifecycle method,
`connectedCallback`, and one top-level statement, the registration of the class
under the tag `range-slider`.

The method talks to two things that are not part of the repository:

* the browser (DOM Standard): `document.createElement`, `appendChild`,
  property lookup on the host, `new CustomEvent`, `dispatchEvent` and
  `customElements.define`;
* the JSR slider library: `new JSR(input, options)` and
  `jsr.addEventListener(type, callback)`.

Both are modelled here as small executable functions over an explicit `World`.
The body of `connectedCallback` and of the arrow function it registers are
translated statement by statement on top of them.
-/

namespace PhotoGroove

/-! ## Values

A DOM node is identified by its index in `World.nodes`, a widget by its index
in `World.widgets`. -/

/-- JavaScript values as far as the element handles them.  The code never
computes on a value, it only forwards it, so numbers are carried as integers. -/
inductive JSValue
  | undefined
  | null
  | bool (b : Bool)
  | num (n : Int)
  | str (s : String)
  | ref (id : Nat)
  deriving DecidableEq, Repr

/-- An object literal: its own properties in source order. -/
abbrev JSObject := List (String × JSValue)

/-! ## Platform: events -/

/-- The `CustomEventInit` dictionary.  A member that the caller leaves out is
`none`. -/
structure CustomEventInit where
  bubbles : Option Bool
  cancelable : Option Bool
  composed : Option Bool
  detail : Option JSObject
  deriving DecidableEq, Repr

/-- A constructed `CustomEvent`. -/
structure CustomEvent where
  type : String
  bubbles : Bool
  cancelable : Bool
  composed : Bool
  detail : Option JSObject
  deriving DecidableEq, Repr

/-- The constructor `new CustomEvent(type, init)`: the dictionary defaults of the
DOM Standard are `false` for the three flags and `null` for `detail`. -/
def newCustomEvent (type : String) (init : CustomEventInit) : CustomEvent :=
  { type := type
    bubbles := init.bubbles.getD false
    cancelable := init.cancelable.getD false
    composed := init.composed.getD false
    detail := init.detail }

/-- A listener that page code registered on a DOM node with
`node.addEventListener(type, handler, capture)`.  The handler is page code and
is known here only by an identifier. -/
structure DomListener where
  type : String
  capture : Bool
  handler : Nat
  deriving DecidableEq, Repr

/-- One invocation of a DOM listener during a dispatch. -/
structure Delivery where
  node : Nat
  listener : DomListener
  event : CustomEvent
  deriving DecidableEq, Repr

/-! ## Platform: elements -/

/-- A DOM element: tag, tree links, content attributes (markup), own JavaScript
properties, and registered listeners. -/
structure Element where
  tag : String
  parent : Option Nat
  children : List Nat
  attrs : List (String × String)
  props : List (String × JSValue)
  listeners : List DomListener
  deriving DecidableEq, Repr

/-! ## External library: JSR -/

/-- The options record handed to `new JSR(input, options)`. -/
structure JSROptions where
  max : JSValue
  values : List JSValue
  sliders : Int
  grid : Bool
  deriving DecidableEq, Repr

/-- The functions this file passes to `jsr.addEventListener`.  There is one:
the arrow function of `connectedCallback`, which closes over
`rangeSliderNode`. -/
inductive Callback
  | onUpdate (rangeSliderNode : Nat)
  deriving DecidableEq, Repr

/-- A JSR instance: the input it was bound to, the options it was given and the
callbacks registered on it, in registration order. -/
structure Widget where
  input : Nat
  options : JSROptions
  listeners : List (String × Callback)
  deriving DecidableEq, Repr

/-- What the library decides on its own: whether `new JSR(input, options)`
throws, and what. -/
structure JSRLib where
  rejects : Nat → JSROptions → Option JSValue

/-! ## World -/

/-- The state the element lives in.  `jsrCalls`, `dispatched` and `delivered`
are traces: every `new JSR` call, every `dispatchEvent` call, and every DOM
listener invocation, oldest first. -/
structure World where
  nodes : List Element
  widgets : List Widget
  jsrCalls : List (Nat × JSROptions)
  dispatched : List (Nat × CustomEvent)
  delivered : List Delivery
  deriving DecidableEq, Repr

/-- The world of an empty page. -/
def World.empty : World :=
  { nodes := [], widgets := [], jsrCalls := [], dispatched := [], delivered := [] }

/-- A statement's result: the world it leaves and the exception it threw, if
any.  An exception does not undo what happened before it. -/
structure Outcome where
  world : World
  thrown : Option JSValue
  deriving DecidableEq, Repr

/-! ## Platform: tree operations -/

/-- A fresh element with the given tag. -/
def Element.fresh (tag : String) : Element :=
  { tag := tag, parent := none, children := [], attrs := [], props := [], listeners := [] }

/-- The call `document.createElement(tag)`: a fresh, parentless, childless
element. -/
def createElement (tag : String) (w : World) : Nat × World :=
  (w.nodes.length, { w with nodes := w.nodes ++ [Element.fresh tag] })

/-- Property read `node.name`.  Neither `RangeSlider` nor anything on the
prototype chain of `HTMLElement` defines `max` or `val`, so the read finds an
own property or yields `undefined`; content attributes are not consulted. -/
def getProperty (w : World) (n : Nat) (name : String) : JSValue :=
  match w.nodes[n]? with
  | none => JSValue.undefined
  | some e => (e.props.lookup name).getD JSValue.undefined

/-- Attribute read `node.getAttribute(name)`. -/
def getAttribute (w : World) (n : Nat) (name : String) : Option String :=
  match w.nodes[n]? with
  | none => none
  | some e => e.attrs.lookup name

/-- The parent of a node, if it has one. -/
def parentOf (w : World) (n : Nat) : Option Nat :=
  (w.nodes[n]?).bind (fun e => e.parent)

/-- The parent chain of a node, nearest first, followed for at most `fuel`
links. -/
def ancestorsAux (w : World) : Nat → Nat → List Nat
  | 0, _ => []
  | fuel + 1, n =>
    match parentOf w n with
    | none => []
    | some p => p :: ancestorsAux w fuel p

/-- The ancestors of a node, nearest first.  A tree of `k` nodes has no parent
chain of `k` links, so on a tree the fuel `w.nodes.length` is never used up. -/
def ancestors (w : World) (n : Nat) : List Nat :=
  ancestorsAux w w.nodes.length n

/-- Detach a node from its parent, if it has one. -/
def removeNode (child : Nat) (w : World) : World :=
  match parentOf w child with
  | none => w
  | some p =>
    { w with
      nodes := List.modify (fun e => { e with parent := none }) child
        (List.modify (fun e => { e with children := e.children.erase child }) p w.nodes) }

/-- The insertion itself: adopt the child (detach it from where it was) and
append it to the parent's children. -/
def insertNode (parent child : Nat) (w : World) : World :=
  let w1 := removeNode child w
  { w1 with
    nodes := List.modify (fun e => { e with parent := some parent }) child
      (List.modify (fun e => { e with children := e.children ++ [child] }) parent w1.nodes) }

/-- The exception of a failed pre-insertion check. -/
def hierarchyRequestError : JSValue := JSValue.str "HierarchyRequestError"

/-- The call `parent.appendChild(child)`: throws when the child is the parent or
one of its ancestors, inserts otherwise. -/
def appendChild (parent child : Nat) (w : World) : Outcome :=
  if child ∈ parent :: ancestors w parent then
    { world := w, thrown := some hierarchyRequestError }
  else
    { world := insertNode parent child w, thrown := none }

/-! ## Platform: event dispatch -/

/-- The listeners of node `n` that an event of this type invokes, among those
selected by `sel`, as deliveries. -/
def invoke (w : World) (ev : CustomEvent) (sel : DomListener → Bool) (n : Nat) :
    List Delivery :=
  match w.nodes[n]? with
  | none => []
  | some e =>
    (e.listeners.filter (fun l => l.type == ev.type && sel l)).map
      (fun l => { node := n, listener := l, event := ev })

/-- The listener invocations of one dispatch on `target`: capturing listeners
on the ancestors from the outermost inwards, then the target's own listeners
(capturing first), then, only when the event bubbles, the non-capturing listeners
on the ancestors from the parent outwards.  Handlers are page code and are taken
as inert: a handler that stops the propagation would cut this list short, so the
list is the most that one dispatch can invoke, and nothing below relies on a
listener being reached. -/
def propagate (w : World) (target : Nat) (ev : CustomEvent) : List Delivery :=
  let path := ancestors w target
  let capturing := ((path.reverse).map (invoke w ev (fun l => l.capture))).flatten
  let atTarget :=
    invoke w ev (fun l => l.capture) target ++ invoke w ev (fun l => !l.capture) target
  let bubbling :=
    if ev.bubbles then (path.map (invoke w ev (fun l => !l.capture))).flatten else []
  capturing ++ atTarget ++ bubbling

/-- The call `target.dispatchEvent(ev)`. -/
def dispatchEvent (target : Nat) (ev : CustomEvent) (w : World) : World :=
  { w with
    dispatched := w.dispatched ++ [(target, ev)]
    delivered := w.delivered ++ propagate w target ev }

/-! ## External library: JSR operations -/

/-- The call `new JSR(input, options)`: the call is traced; the library either
throws or yields a new instance with no callbacks yet.  What the library draws
on the page is its own business and is left out. -/
def newJSR (lib : JSRLib) (input : Nat) (options : JSROptions) (w : World) :
    World × Except JSValue Nat :=
  let w1 := { w with jsrCalls := w.jsrCalls ++ [(input, options)] }
  match lib.rejects input options with
  | some err => (w1, Except.error err)
  | none =>
    ({ w1 with widgets := w1.widgets ++ [{ input := input, options := options, listeners := [] }] },
      Except.ok w1.widgets.length)

/-- The call `jsr.addEventListener(type, callback)`. -/
def jsrAddEventListener (jsr : Nat) (type : String) (cb : Callback) (w : World) : World :=
  { w with
    widgets := List.modify (fun wd => { wd with listeners := wd.listeners ++ [(type, cb)] })
      jsr w.widgets }

/-! ## The source: `class RangeSlider` -/

/-- The arrow function registered by `connectedCallback`:
`(elem, value) => { const event = new CustomEvent('slide', { detail: { userSlidTo: value } });
rangeSliderNode.dispatchEvent(event); }`. -/
def Callback.call : Callback → JSValue → JSValue → World → World
  | Callback.onUpdate rangeSliderNode, _elem, value, w =>
    let event := newCustomEvent "slide"
      { bubbles := none, cancelable := none, composed := none,
        detail := some [("userSlidTo", value)] }
    dispatchEvent rangeSliderNode event w

/-- The options literal of the source,
`{ max: this.max, values: [this.val], sliders: 1, grid: false }`. -/
def jsrOptions (w : World) (this : Nat) : JSROptions :=
  { max := getProperty w this "max"
    values := [getProperty w this "val"]
    sliders := 1
    grid := false }

/-- The method `RangeSlider.connectedCallback`, statement by statement. -/
def connectedCallback (lib : JSRLib) (this : Nat) (w : World) : Outcome :=
  -- const input = document.createElement("input");
  let (input, w1) := createElement "input" w
  -- this.appendChild(input);
  let r := appendChild this input w1
  match r.thrown with
  | some err => { world := r.world, thrown := some err }
  | none =>
    -- const jsr = new JSR(input, { max: this.max, values: [this.val], sliders: 1, grid: false });
    match newJSR lib input (jsrOptions r.world this) r.world with
    | (w3, Except.error err) => { world := w3, thrown := some err }
    | (w3, Except.ok jsr) =>
      -- const rangeSliderNode = this;
      let rangeSliderNode := this
      -- jsr.addEventListener('update', (elem, value) => { ... });
      { world := jsrAddEventListener jsr "update" (Callback.onUpdate rangeSliderNode) w3
        thrown := none }

/-- The widget's notification mechanism: every callback registered on the
widget for `type` is called with `(elem, value)`, in registration order. -/
def notify (jsr : Nat) (type : String) (elem value : JSValue) (w : World) : World :=
  match w.widgets[jsr]? with
  | none => w
  | some wd =>
    (wd.listeners.filter (fun l => l.1 == type)).foldl
      (fun acc l => l.2.call elem value acc) w

/-! ## The source: registration -/

/-- What a custom-element registry can hold as a constructor: the class of this
file, or any other class of the page. -/
inductive ElementClass
  | RangeSlider
  | other (id : Nat)
  deriving DecidableEq, Repr

/-- The custom-element registry: definitions in the order they were made. -/
abbrev Registry := List (String × ElementClass)

/-- The hyphenated names that the HTML Standard reserves. -/
def reservedNames : List String :=
  ["annotation-xml", "color-profile", "font-face", "font-face-src", "font-face-uri",
   "font-face-format", "font-face-name", "missing-glyph"]

/-- Valid custom element name, ASCII part of the rule: starts with a lower-case
letter, contains a hyphen, has no upper-case letter, is not reserved. -/
def isValidCustomElementName (name : String) : Bool :=
  match name.data with
  | [] => false
  | c :: cs =>
    decide ('a' ≤ c ∧ c ≤ 'z') && cs.contains '-' &&
      cs.all (fun d => !decide ('A' ≤ d ∧ d ≤ 'Z')) && !reservedNames.contains name

/-- The call `customElements.define(name, cls)`: throws on an invalid name, on a
name already defined and on a class already defined; appends the definition
otherwise. -/
def customElementsDefine (name : String) (cls : ElementClass) (reg : Registry) :
    Except String Registry :=
  if !isValidCustomElementName name then Except.error "SyntaxError"
  else if reg.any (fun d => d.1 == name) then Except.error "NotSupportedError"
  else if reg.any (fun d => d.2 == cls) then Except.error "NotSupportedError"
  else Except.ok (reg ++ [(name, cls)])

/-- The top-level statement of the file:
`window.customElements.define("range-slider", RangeSlider);`. -/
def loadScript (reg : Registry) : Except String Registry :=
  customElementsDefine "range-slider" ElementClass.RangeSlider reg

/-- The names under which a class is registered. -/
def namesOf (reg : Registry) (cls : ElementClass) : List String :=
  (reg.filter (fun d => d.2 == cls)).map (fun d => d.1)

/-! ## The page as a transition system -/

/-- Whether node `n` is an instance of `RangeSlider`, that is, an element with
the registered tag. -/
def isRangeSlider (w : World) (n : Nat) : Bool :=
  match w.nodes[n]? with
  | none => false
  | some e => e.tag == "range-slider"

/-- What can happen on the page.  `connect` is the platform calling
`connectedCallback` on a host; `insert` and `remove` are attachment and
detachment of a node; `notify` is a widget delivering a notification; the others
are page code preparing elements. -/
inductive Action
  | create (tag : String)
  | setAttribute (n : Nat) (name value : String)
  | setProperty (n : Nat) (name : String) (value : JSValue)
  | listen (n : Nat) (type : String) (capture : Bool) (handler : Nat)
  | insert (parent child : Nat)
  | remove (child : Nat)
  | connect (host : Nat)
  | notify (jsr : Nat) (type : String) (elem value : JSValue)
  deriving DecidableEq, Repr

/-- Replace the binding of `k` in an association list, or add it. -/
def assocSet {β : Type} (k : String) (v : β) : List (String × β) → List (String × β)
  | [] => [(k, v)]
  | (k1, v1) :: rest => if k1 == k then (k, v) :: rest else (k1, v1) :: assocSet k v rest

/-- One action.  An action that names a node or widget that does not exist does
nothing; the platform calls `connectedCallback` only on instances of the class,
and an exception it throws is reported without undoing its effects; the class
defines no `disconnectedCallback`, so `remove` runs no code of the element. -/
def step (lib : JSRLib) (w : World) : Action → World
  | Action.create tag => (createElement tag w).2
  | Action.setAttribute n name value =>
    { w with nodes := List.modify (fun e => { e with attrs := assocSet name value e.attrs }) n w.nodes }
  | Action.setProperty n name value =>
    { w with nodes := List.modify (fun e => { e with props := assocSet name value e.props }) n w.nodes }
  | Action.listen n type capture handler =>
    { w with
      nodes := List.modify
        (fun e => { e with listeners := e.listeners ++ [{ type := type, capture := capture, handler := handler }] })
        n w.nodes }
  | Action.insert parent child =>
    if parent < w.nodes.length ∧ child < w.nodes.length then (appendChild parent child w).world
    else w
  | Action.remove child => removeNode child w
  | Action.connect host =>
    if isRangeSlider w host then (connectedCallback lib host w).world else w
  | Action.notify jsr type elem value => notify jsr type elem value w

/-- A sequence of actions, first to last. -/
def run (lib : JSRLib) (w : World) (acts : List Action) : World :=
  acts.foldl (step lib) w

/-- A library that accepts every construction. -/
def JSRLib.lenient : JSRLib := { rejects := fun _ _ => none }

/-- A library that rejects every construction with the given error. -/
def JSRLib.strict (err : JSValue) : JSRLib := { rejects := fun _ _ => some err }

/-- Well-formed world: every tree link and every widget input names an existing
node. -/
def wf (w : World) : Bool :=
  w.nodes.all (fun e =>
    e.parent.all (fun p => decide (p < w.nodes.length)) &&
      e.children.all (fun c => decide (c < w.nodes.length))) &&
    w.widgets.all (fun wd => decide (wd.input < w.nodes.length))

/-- The children of `n`. -/
def childrenOf (w : World) (n : Nat) : List Nat :=
  match w.nodes[n]? with
  | none => []
  | some e => e.children

/-- The children of `n` that are `input` elements. -/
def childInputs (w : World) (n : Nat) : List Nat :=
  (childrenOf w n).filter (fun c =>
    match w.nodes[c]? with
    | none => false
    | some e => e.tag == "input")

/-! ## Definitions used by the statements -/

/-- The result of `connectedCallback` on the node table: the host gains the new
input as its last child, and the input is added with the host as parent. -/
def nodesAfterConnect (this : Nat) (nodes : List Element) : List Element :=
  List.modify (fun e => { e with children := e.children ++ [nodes.length] }) this nodes ++
    [{ Element.fresh "input" with parent := some this }]

/-- The tree links of one element stay below `bound`. -/
def elemOk (bound : Nat) (e : Element) : Prop :=
  (∀ p, e.parent = some p → p < bound) ∧ ∀ c ∈ e.children, c < bound

/-- The event a relayed update is expected to produce: type `slide`, the three
flags off, and `{ userSlidTo: value }` as detail. -/
def slideEvent (value : JSValue) : CustomEvent :=
  { type := "slide", bubbles := false, cancelable := false, composed := false,
    detail := some [("userSlidTo", value)] }

/-- The events dispatched on node `h` so far, oldest first. -/
def eventsOn (w : World) (h : Nat) : List CustomEvent :=
  (w.dispatched.filter (fun d => d.1 == h)).map (fun d => d.2)

/-- The widgets whose only callback is the update relay of host `h`. -/
def widgetsOf (w : World) (h : Nat) : List Widget :=
  w.widgets.filter (fun wd => wd.listeners == [("update", Callback.onUpdate h)])

/-- The invariant of the page: every widget holds exactly one callback, the
update relay of a host satisfying `P`, and every dispatched event is a slide
event on a node satisfying `P`. -/
def RelayInv (P : Nat → Prop) (w : World) : Prop :=
  (∀ wd ∈ w.widgets, ∃ h, wd.listeners = [("update", Callback.onUpdate h)] ∧ P h) ∧
    ∀ d ∈ w.dispatched, P d.1 ∧ ∃ value, d.2 = slideEvent value

/-- A page with a `div` (node 0, listening for `slide`) that contains one
`range-slider` host (node 1) whose markup says `max="10" val="3"` and whose
properties `max` and `val` are set to 10 and 3. -/
def pageActions : List Action :=
  [Action.create "div", Action.create "range-slider", Action.insert 0 1,
   Action.listen 0 "slide" false 7, Action.listen 1 "slide" false 8,
   Action.setAttribute 1 "max" "10", Action.setAttribute 1 "val" "3",
   Action.setProperty 1 "max" (JSValue.num 10), Action.setProperty 1 "val" (JSValue.num 3)]

/-- The world of `pageActions`. -/
def page : World := run JSRLib.lenient World.empty pageActions

/-- A page whose host (node 0) has the markup `max="10" val="3"` and no
properties. -/
def markupOnlyPage : World :=
  run JSRLib.lenient World.empty
    [Action.create "range-slider", Action.setAttribute 0 "max" "10",
     Action.setAttribute 0 "val" "3"]

/-- A page whose host (node 0) has the same markup, and the properties `max` and
`val` set to 7 and 2. -/
def markupAndPropsPage : World :=
  run JSRLib.lenient World.empty
    [Action.create "range-slider", Action.setAttribute 0 "max" "10",
     Action.setAttribute 0 "val" "3", Action.setProperty 0 "max" (JSValue.num 7),
     Action.setProperty 0 "val" (JSValue.num 2)]

/-- The example page with one more listener on the `div` (node 0): a capturing
`slide` listener (handler 3). -/
def capturePage : World :=
  run JSRLib.lenient page [Action.listen 0 "slide" true 3]

/-- The example page after the host was attached and its widget reported the
value 5. -/
def bubbleProbe : World :=
  run JSRLib.lenient page
    [Action.connect 1, Action.notify 0 "update" (JSValue.ref 2) (JSValue.num 5)]

/-- Actions on a host that is created and configured, whose (non-existent)
widget is even notified, but that is never attached. -/
def unattachedActions : List Action :=
  [Action.create "range-slider", Action.setProperty 0 "max" (JSValue.num 10),
   Action.notify 0 "update" (JSValue.ref 1) (JSValue.num 5), Action.remove 0]

/-- The method run `n` times in a row on the same host. -/
def connectN (lib : JSRLib) (this : Nat) : Nat → World → World
  | 0, w => w
  | n + 1, w => (connectedCallback lib this (connectN lib this n w)).world

/-- Attach, detach, attach again, detach, attach again. -/
def reattachActions : List Action :=
  [Action.connect 1, Action.remove 1, Action.insert 0 1, Action.connect 1, Action.remove 1,
   Action.connect 1]

/-! ## Supporting lemmas: the tree -/

theorem wf_iff (w : World) :
    wf w = true ↔
      (∀ e ∈ w.nodes, (∀ p, e.parent = some p → p < w.nodes.length) ∧
        ∀ c ∈ e.children, c < w.nodes.length) ∧
      ∀ wd ∈ w.widgets, wd.input < w.nodes.length := by
  simp only [wf, Bool.and_eq_true, List.all_eq_true, decide_eq_true_eq]
  constructor
  · rintro ⟨h1, h2⟩
    refine ⟨fun e he => ⟨fun p hp => ?_, (h1 e he).2⟩, h2⟩
    have := (h1 e he).1
    rw [hp] at this
    simpa using this
  · rintro ⟨h1, h2⟩
    refine ⟨fun e he => ⟨?_, (h1 e he).2⟩, h2⟩
    cases hp : e.parent with
    | none => rfl
    | some p => simpa using (h1 e he).1 p hp

theorem parentOf_lt (w : World) (hwf : wf w = true) (n p : Nat)
    (h : parentOf w n = some p) : p < w.nodes.length := by
  unfold parentOf at h
  cases hn : w.nodes[n]? with
  | none => simp [hn] at h
  | some e =>
    simp [hn] at h
    exact (((wf_iff w).1 hwf).1 e (List.mem_iff_getElem?.2 ⟨n, hn⟩)).1 p h

theorem modify_modify_append (l : List Element) (this : Nat) (hthis : this < l.length)
    (f g : Element → Element) (x : Element) :
    List.modify g l.length (List.modify f this (l ++ [x])) = List.modify f this l ++ [g x] := by
  apply List.ext_getElem?
  intro m
  rw [List.getElem?_modify, List.getElem?_modify]
  rcases Nat.lt_trichotomy m l.length with hm | hm | hm
  · have h1 : l.length ≠ m := by omega
    rw [List.getElem?_append_left hm, List.getElem?_append_left (by simpa using hm),
      List.getElem?_modify]
    simp [h1]
  · subst hm
    have h1 : this ≠ l.length := Nat.ne_of_lt hthis
    rw [List.getElem?_append_right (le_refl _), List.getElem?_append_right (by simp)]
    simp [h1]
  · have h1 : l.length ≠ m := by omega
    rw [List.getElem?_append_right (by omega), List.getElem?_append_right (by simp; omega)]
    rw [List.getElem?_eq_none (l := [x]) (by simp; omega)]
    rw [List.getElem?_eq_none (l := [g x]) (by simp; omega)]
    simp

theorem parentOf_createElement (w : World) (tag : String) (n : Nat) :
    parentOf (createElement tag w).2 n = parentOf w n := by
  unfold parentOf createElement
  rcases Nat.lt_trichotomy n w.nodes.length with hn | hn | hn
  · simp [List.getElem?_append_left hn]
  · subst hn
    simp [Element.fresh]
  · rw [List.getElem?_eq_none (by simp; omega), List.getElem?_eq_none (by omega)]

theorem ancestorsAux_createElement_lt (w : World) (hwf : wf w = true) (tag : String) :
    ∀ (fuel : Nat) (n : Nat), ∀ x ∈ ancestorsAux (createElement tag w).2 fuel n,
      x < w.nodes.length := by
  intro fuel
  induction fuel with
  | zero => intro n x hx; simp [ancestorsAux] at hx
  | succ k ih =>
    intro n x hx
    unfold ancestorsAux at hx
    rw [parentOf_createElement] at hx
    cases hp : parentOf w n with
    | none => simp [hp] at hx
    | some p =>
      simp only [hp, List.mem_cons] at hx
      rcases hx with rfl | hx
      · exact parentOf_lt w hwf n _ hp
      · exact ih p x hx

theorem getProperty_modify_children (w : World) (nodes : List Element) (this : Nat)
    (name : String) (hn : nodes = nodesAfterConnect this w.nodes)
    (hthis : this < w.nodes.length) :
    getProperty { w with nodes := nodes } this name = getProperty w this name := by
  subst hn
  unfold getProperty nodesAfterConnect
  simp only
  rw [List.getElem?_append_left (by simpa using hthis), List.getElem?_modify]
  cases w.nodes[this]? <;> simp

/-- What `connectedCallback` does on a well-formed world, in closed form. -/
theorem connectedCallback_eq (lib : JSRLib) (w : World) (this : Nat)
    (hwf : wf w = true) (hthis : this < w.nodes.length) :
    connectedCallback lib this w =
      match lib.rejects w.nodes.length (jsrOptions w this) with
      | some err =>
        { world :=
            { w with
              nodes := nodesAfterConnect this w.nodes
              jsrCalls := w.jsrCalls ++ [(w.nodes.length, jsrOptions w this)] }
          thrown := some err }
      | none =>
        { world :=
            { w with
              nodes := nodesAfterConnect this w.nodes
              jsrCalls := w.jsrCalls ++ [(w.nodes.length, jsrOptions w this)]
              widgets := w.widgets ++
                [{ input := w.nodes.length, options := jsrOptions w this,
                   listeners := [("update", Callback.onUpdate this)] }] }
          thrown := none } := by
  have hnot : ¬ w.nodes.length ∈ this :: ancestors (createElement "input" w).2 this := by
    intro hmem
    rcases List.mem_cons.1 hmem with h | h
    · rw [h] at hthis
      exact lt_irrefl _ hthis
    · exact absurd (ancestorsAux_createElement_lt w hwf "input" _ _ _ h) (lt_irrefl _)
  have hpar : parentOf (createElement "input" w).2 w.nodes.length = none := by
    rw [parentOf_createElement]
    unfold parentOf
    rw [List.getElem?_eq_none (le_refl _)]
    rfl
  have hnodes : (insertNode this w.nodes.length (createElement "input" w).2).nodes =
      nodesAfterConnect this w.nodes := by
    unfold insertNode removeNode
    simp only [hpar]
    unfold createElement nodesAfterConnect
    simp only
    rw [modify_modify_append _ _ hthis]
  have hw2 : insertNode this w.nodes.length (createElement "input" w).2 =
      { w with nodes := nodesAfterConnect this w.nodes } := by
    rw [← hnodes]
    unfold insertNode removeNode
    simp only [hpar]
    rfl
  have hopts : jsrOptions { w with nodes := nodesAfterConnect this w.nodes } this =
      jsrOptions w this := by
    unfold jsrOptions
    rw [getProperty_modify_children w _ this "max" rfl hthis,
      getProperty_modify_children w _ this "val" rfl hthis]
  unfold connectedCallback
  have hc : (createElement "input" w) = (w.nodes.length, (createElement "input" w).2) := rfl
  rw [hc]
  simp only [appendChild, if_neg hnot, hw2, hopts, newJSR]
  cases hrej : lib.rejects w.nodes.length (jsrOptions w this) with
  | some err => simp
  | none =>
    simp only [jsrAddEventListener]
    congr 2
    apply List.ext_getElem?
    intro m
    rw [List.getElem?_modify]
    rcases Nat.lt_trichotomy m w.widgets.length with hm | hm | hm
    · have h1 : w.widgets.length ≠ m := by omega
      simp [List.getElem?_append_left hm, h1]
    · subst hm
      simp
    · have h1 : w.widgets.length ≠ m := by omega
      rw [List.getElem?_append_right (by omega), List.getElem?_append_right (by omega)]
      rw [List.getElem?_eq_none (by simp; omega), List.getElem?_eq_none (by simp; omega)]
      simp

/-! ## Supporting lemmas: well-formedness is preserved -/

theorem elemOk_mono {a b : Nat} (hab : a ≤ b) (e : Element) (h : elemOk a e) : elemOk b e :=
  ⟨fun p hp => lt_of_lt_of_le (h.1 p hp) hab, fun c hc => lt_of_lt_of_le (h.2 c hc) hab⟩

theorem elemOk_modify (bound : Nat) (f : Element → Element) (n : Nat) (l : List Element)
    (hf : ∀ e, elemOk bound e → elemOk bound (f e)) (hl : ∀ e ∈ l, elemOk bound e) :
    ∀ e ∈ List.modify f n l, elemOk bound e := by
  intro e he
  obtain ⟨m, hm⟩ := List.mem_iff_getElem?.1 he
  rw [List.getElem?_modify] at hm
  cases hl1 : l[m]? with
  | none => simp [hl1] at hm
  | some a =>
    have ha := hl a (List.mem_iff_getElem?.2 ⟨m, hl1⟩)
    simp only [hl1, Option.map_eq_map, Option.map_some', Option.some.injEq] at hm
    by_cases hnm : n = m
    · simp only [hnm, if_true] at hm
      rw [← hm]
      exact hf a ha
    · simp only [hnm, if_false] at hm
      rw [← hm]
      exact ha

theorem wf_of (nodes : List Element) (w : World)
    (hn : ∀ e ∈ nodes, elemOk nodes.length e)
    (hw : ∀ wd ∈ w.widgets, wd.input < nodes.length) :
    wf { w with nodes := nodes } = true :=
  (wf_iff _).2 ⟨hn, hw⟩

theorem wf_modify (w : World) (hwf : wf w = true) (f : Element → Element) (n : Nat)
    (hf : ∀ e, elemOk w.nodes.length e → elemOk w.nodes.length (f e)) :
    wf { w with nodes := List.modify f n w.nodes } = true := by
  have h := (wf_iff w).1 hwf
  apply wf_of
  · rw [List.length_modify]
    exact elemOk_modify _ f n _ hf h.1
  · rw [List.length_modify]
    exact h.2

theorem removeNode_length (c : Nat) (w : World) :
    (removeNode c w).nodes.length = w.nodes.length := by
  unfold removeNode
  cases parentOf w c <;> simp [List.length_modify]

theorem wf_removeNode (c : Nat) (w : World) (hwf : wf w = true) :
    wf (removeNode c w) = true := by
  unfold removeNode
  cases hp : parentOf w c with
  | none => exact hwf
  | some p =>
    have h1 := wf_modify w hwf (fun e => { e with children := e.children.erase c }) p
      (fun e he => ⟨he.1, fun x hx => he.2 x (List.mem_of_mem_erase hx)⟩)
    have h2 := wf_modify _ h1 (fun e => { e with parent := none }) c
      (fun e he => ⟨fun q hq => by simp at hq, he.2⟩)
    exact h2

theorem wf_insertNode (p c : Nat) (w : World) (hwf : wf w = true)
    (hp : p < w.nodes.length) (hc : c < w.nodes.length) :
    wf (insertNode p c w) = true := by
  unfold insertNode
  have h0 := wf_removeNode c w hwf
  have hlen := removeNode_length c w
  have h1 := wf_modify _ h0 (fun e => { e with children := e.children ++ [c] }) p
    (fun e he => ⟨he.1, fun x hx => by
      rcases List.mem_append.1 hx with hx | hx
      · exact he.2 x hx
      · rw [List.mem_singleton.1 hx, hlen]; exact hc⟩)
  have h2 := wf_modify _ h1 (fun e => { e with parent := some p }) c
    (fun e he => ⟨fun q hq => by
      simp only [Option.some.injEq] at hq
      rw [← hq, List.length_modify, hlen]; exact hp, he.2⟩)
  exact h2

theorem call_nodes_widgets (cb : Callback) (elem value : JSValue) (w : World) :
    (cb.call elem value w).nodes = w.nodes ∧ (cb.call elem value w).widgets = w.widgets ∧
      (cb.call elem value w).jsrCalls = w.jsrCalls := by
  cases cb
  exact ⟨rfl, rfl, rfl⟩

theorem foldl_call_frame (elem value : JSValue) (ls : List (String × Callback)) :
    ∀ w : World,
      (ls.foldl (fun acc l => l.2.call elem value acc) w).nodes = w.nodes ∧
      (ls.foldl (fun acc l => l.2.call elem value acc) w).widgets = w.widgets ∧
      (ls.foldl (fun acc l => l.2.call elem value acc) w).jsrCalls = w.jsrCalls := by
  induction ls with
  | nil => intro w; exact ⟨rfl, rfl, rfl⟩
  | cons l ls ih =>
    intro w
    simp only [List.foldl_cons]
    have h1 := ih (l.2.call elem value w)
    have h2 := call_nodes_widgets l.2 elem value w
    exact ⟨h1.1.trans h2.1, h1.2.1.trans h2.2.1, h1.2.2.trans h2.2.2⟩

/-- A notification touches only the two event traces. -/
theorem notify_frame (jsr : Nat) (type : String) (elem value : JSValue) (w : World) :
    (notify jsr type elem value w).nodes = w.nodes ∧
      (notify jsr type elem value w).widgets = w.widgets ∧
      (notify jsr type elem value w).jsrCalls = w.jsrCalls := by
  unfold notify
  cases w.widgets[jsr]? with
  | none => exact ⟨rfl, rfl, rfl⟩
  | some wd => exact foldl_call_frame elem value _ w

theorem wf_congr (w1 w2 : World) (hn : w1.nodes = w2.nodes) (hw : w1.widgets = w2.widgets)
    (h : wf w2 = true) : wf w1 = true := by
  unfold wf at *
  rw [hn, hw]
  exact h

theorem isRangeSlider_lt (w : World) (n : Nat) (h : isRangeSlider w n = true) :
    n < w.nodes.length := by
  unfold isRangeSlider at h
  by_contra hlt
  rw [List.getElem?_eq_none (Nat.le_of_not_lt hlt)] at h
  simp at h

theorem nodesAfterConnect_length (this : Nat) (nodes : List Element) :
    (nodesAfterConnect this nodes).length = nodes.length + 1 := by
  simp [nodesAfterConnect, List.length_modify]

theorem wf_connectedCallback (lib : JSRLib) (w : World) (this : Nat)
    (hwf : wf w = true) (hthis : this < w.nodes.length) :
    wf (connectedCallback lib this w).world = true := by
  have h := (wf_iff w).1 hwf
  have hnodes : ∀ e ∈ nodesAfterConnect this w.nodes,
      elemOk (nodesAfterConnect this w.nodes).length e := by
    rw [nodesAfterConnect_length]
    intro e he
    unfold nodesAfterConnect at he
    rcases List.mem_append.1 he with he | he
    · refine elemOk_modify (w.nodes.length + 1) _ this w.nodes ?_ ?_ e he
      · intro a ha
        refine ⟨ha.1, fun x hx => ?_⟩
        rcases List.mem_append.1 hx with hx | hx
        · exact ha.2 x hx
        · rw [List.mem_singleton.1 hx]; exact Nat.lt_succ_self _
      · intro a ha
        exact elemOk_mono (Nat.le_succ _) a (h.1 a ha)
    · rw [List.mem_singleton.1 he]
      refine ⟨fun q hq => ?_, fun c hc => ?_⟩
      · simp only [Option.some.injEq] at hq
        rw [← hq]; exact Nat.lt_succ_of_lt hthis
      · simp [Element.fresh] at hc
  rw [connectedCallback_eq lib w this hwf hthis]
  cases lib.rejects w.nodes.length (jsrOptions w this) with
  | some err =>
    refine (wf_iff _).2 ⟨hnodes, ?_⟩
    intro wd hwd
    show wd.input < (nodesAfterConnect this w.nodes).length
    rw [nodesAfterConnect_length]
    exact Nat.lt_succ_of_lt (h.2 wd hwd)
  | none =>
    refine (wf_iff _).2 ⟨hnodes, ?_⟩
    intro wd hwd
    show wd.input < (nodesAfterConnect this w.nodes).length
    rw [nodesAfterConnect_length]
    rcases List.mem_append.1 hwd with hwd | hwd
    · exact Nat.lt_succ_of_lt (h.2 wd hwd)
    · rw [List.mem_singleton.1 hwd]; exact Nat.lt_succ_self _

/-- Every action keeps the world well-formed. -/
theorem wf_step (lib : JSRLib) (w : World) (a : Action) (hwf : wf w = true) :
    wf (step lib w a) = true := by
  have h := (wf_iff w).1 hwf
  cases a with
  | create tag =>
    refine (wf_iff _).2 ⟨?_, ?_⟩
    · intro e he
      simp only [step, createElement, List.length_append, List.length_singleton] at he ⊢
      rcases List.mem_append.1 he with he | he
      · exact elemOk_mono (Nat.le_succ _) e (h.1 e he)
      · rw [List.mem_singleton.1 he]
        exact ⟨fun q hq => by simp [Element.fresh] at hq, fun c hc => by simp [Element.fresh] at hc⟩
    · intro wd hwd
      simp only [step, createElement, List.length_append, List.length_singleton] at hwd ⊢
      exact Nat.lt_succ_of_lt (h.2 wd hwd)
  | setAttribute n name value => exact wf_modify w hwf _ n (fun e he => he)
  | setProperty n name value => exact wf_modify w hwf _ n (fun e he => he)
  | listen n type capture handler => exact wf_modify w hwf _ n (fun e he => he)
  | insert p c =>
    simp only [step]
    split
    · rename_i hpc
      unfold appendChild
      split
      · exact hwf
      · exact wf_insertNode p c w hwf hpc.1 hpc.2
    · exact hwf
  | remove c => exact wf_removeNode c w hwf
  | connect host =>
    simp only [step]
    split
    · rename_i hrs
      exact wf_connectedCallback lib w host hwf (isRangeSlider_lt w host hrs)
    · exact hwf
  | notify jsr type elem value =>
    have hf := notify_frame jsr type elem value w
    exact wf_congr _ w hf.1 hf.2.1 hwf

/-- Every run keeps the world well-formed. -/
theorem wf_run (lib : JSRLib) (acts : List Action) :
    ∀ w : World, wf w = true → wf (run lib w acts) = true := by
  induction acts with
  | nil => intro w h; exact h
  | cons a acts ih =>
    intro w h
    exact ih (step lib w a) (wf_step lib w a h)

theorem wf_empty : wf World.empty = true := rfl

/-! ## Supporting lemmas: widgets, listeners and the event trace -/

theorem call_onUpdate (h : Nat) (elem value : JSValue) (w : World) :
    (Callback.onUpdate h).call elem value w = dispatchEvent h (slideEvent value) w := rfl

/-- A notification on a widget that holds exactly the update relay. -/
theorem notify_relay (w : World) (jsr : Nat) (wd : Widget) (h : Nat)
    (hw : w.widgets[jsr]? = some wd) (hl : wd.listeners = [("update", Callback.onUpdate h)])
    (type : String) (elem value : JSValue) :
    notify jsr type elem value w =
      if type = "update" then dispatchEvent h (slideEvent value) w else w := by
  unfold notify
  rw [hw]
  simp only [hl]
  by_cases ht : type = "update"
  · subst ht
    simp [List.filter, call_onUpdate]
  · have : ("update" == type) = false := by
      rw [beq_eq_false_iff_ne]
      exact fun h => ht h.symm
    simp [List.filter, this, ht]

theorem insertNode_frame (p c : Nat) (v : World) :
    (insertNode p c v).dispatched = v.dispatched ∧ (insertNode p c v).delivered = v.delivered ∧
      (insertNode p c v).widgets = v.widgets := by
  unfold insertNode removeNode
  cases parentOf v c <;> exact ⟨rfl, rfl, rfl⟩

theorem removeNode_frame (c : Nat) (v : World) :
    (removeNode c v).dispatched = v.dispatched ∧ (removeNode c v).delivered = v.delivered ∧
      (removeNode c v).widgets = v.widgets := by
  unfold removeNode
  cases parentOf v c <;> exact ⟨rfl, rfl, rfl⟩

/-- Frame of `connectedCallback`, without any assumption on the world: it
dispatches nothing, and it leaves the widgets alone or adds one widget that holds
exactly the update relay of the host. -/
theorem connectedCallback_frame (lib : JSRLib) (this : Nat) (w : World) :
    (connectedCallback lib this w).world.dispatched = w.dispatched ∧
      (connectedCallback lib this w).world.delivered = w.delivered ∧
      ((connectedCallback lib this w).world.widgets = w.widgets ∨
        ∃ i o, (connectedCallback lib this w).world.widgets =
          w.widgets ++ [{ input := i, options := o,
                          listeners := [("update", Callback.onUpdate this)] }]) := by
  have hmod : ∀ (l : List Widget) (x : Widget) (f : Widget → Widget),
      List.modify f l.length (l ++ [x]) = l ++ [f x] := by
    intro l x f
    apply List.ext_getElem?
    intro m
    rw [List.getElem?_modify]
    rcases Nat.lt_trichotomy m l.length with hm | hm | hm
    · have h1 : l.length ≠ m := by omega
      simp [List.getElem?_append_left hm, h1]
    · subst hm
      simp
    · have h1 : l.length ≠ m := by omega
      rw [List.getElem?_append_right (by omega), List.getElem?_append_right (by omega)]
      rw [List.getElem?_eq_none (by simp; omega), List.getElem?_eq_none (by simp; omega)]
      simp
  unfold connectedCallback
  have hc : (createElement "input" w) = (w.nodes.length, (createElement "input" w).2) := rfl
  rw [hc]
  simp only [appendChild]
  by_cases hmem : w.nodes.length ∈ this :: ancestors (createElement "input" w).2 this
  · simp only [if_pos hmem]
    exact ⟨rfl, rfl, Or.inl rfl⟩
  · simp only [if_neg hmem, newJSR]
    have h3 := insertNode_frame this w.nodes.length (createElement "input" w).2
    cases lib.rejects w.nodes.length
        (jsrOptions (insertNode this w.nodes.length (createElement "input" w).2) this) with
    | some err => exact ⟨h3.1, h3.2.1, Or.inl h3.2.2⟩
    | none =>
      refine ⟨h3.1, h3.2.1, Or.inr ⟨w.nodes.length,
        jsrOptions (insertNode this w.nodes.length (createElement "input" w).2) this, ?_⟩⟩
      simp only [jsrAddEventListener]
      rw [hmod, h3.2.2]
      rfl

theorem step_widgets_dispatched_of_nodes_only (w w1 : World)
    (hw : w1.widgets = w.widgets) (hd : w1.dispatched = w.dispatched)
    (P : Nat → Prop) (h : RelayInv P w) : RelayInv P w1 := by
  unfold RelayInv
  rw [hw, hd]
  exact h

/-- Every action other than a `connect` of a host outside `P` keeps the
invariant. -/
theorem relayInv_step (lib : JSRLib) (P : Nat → Prop) (w : World) (a : Action)
    (ha : ∀ h, a = Action.connect h → P h) (hinv : RelayInv P w) :
    RelayInv P (step lib w a) := by
  cases a with
  | create tag => exact step_widgets_dispatched_of_nodes_only w _ rfl rfl P hinv
  | setAttribute n name value => exact step_widgets_dispatched_of_nodes_only w _ rfl rfl P hinv
  | setProperty n name value => exact step_widgets_dispatched_of_nodes_only w _ rfl rfl P hinv
  | listen n type capture handler =>
    exact step_widgets_dispatched_of_nodes_only w _ rfl rfl P hinv
  | insert p c =>
    simp only [step]
    split
    · unfold appendChild
      split
      · exact hinv
      · exact step_widgets_dispatched_of_nodes_only w _ (insertNode_frame p c w).2.2
          (insertNode_frame p c w).1 P hinv
    · exact hinv
  | remove c =>
    exact step_widgets_dispatched_of_nodes_only w _ (removeNode_frame c w).2.2
      (removeNode_frame c w).1 P hinv
  | connect host =>
    simp only [step]
    split
    · have hf := connectedCallback_frame lib host w
      refine ⟨?_, ?_⟩
      · rcases hf.2.2 with hw | ⟨i, o, hw⟩
        · rw [hw]; exact hinv.1
        · rw [hw]
          intro wd hwd
          rcases List.mem_append.1 hwd with hwd | hwd
          · exact hinv.1 wd hwd
          · rw [List.mem_singleton.1 hwd]
            exact ⟨host, rfl, ha host rfl⟩
      · rw [hf.1]; exact hinv.2
    · exact hinv
  | notify jsr type elem value =>
    simp only [step]
    cases hw : w.widgets[jsr]? with
    | none =>
      have : notify jsr type elem value w = w := by
        unfold notify
        rw [hw]
      rw [this]
      exact hinv
    | some wd =>
      obtain ⟨h, hl, hP⟩ := hinv.1 wd (List.mem_iff_getElem?.2 ⟨jsr, hw⟩)
      rw [notify_relay w jsr wd h hw hl]
      split
      · refine ⟨hinv.1, ?_⟩
        intro d hd
        simp only [dispatchEvent] at hd
        rcases List.mem_append.1 hd with hd | hd
        · exact hinv.2 d hd
        · rw [List.mem_singleton.1 hd]; exact ⟨hP, value, rfl⟩
      · exact hinv

theorem relayInv_run (lib : JSRLib) (P : Nat → Prop) (acts : List Action) :
    ∀ w : World, (∀ h, Action.connect h ∈ acts → P h) → RelayInv P w →
      RelayInv P (run lib w acts) := by
  induction acts with
  | nil => intro w _ h; exact h
  | cons a acts ih =>
    intro w hP h
    refine ih (step lib w a) (fun h hh => hP h (List.mem_cons_of_mem _ hh)) ?_
    exact relayInv_step lib P w a (fun h hh => hP h (by rw [hh]; exact List.mem_cons_self _ _)) h

theorem relayInv_empty (P : Nat → Prop) : RelayInv P World.empty :=
  ⟨fun wd hwd => by simp [World.empty] at hwd, fun d hd => by simp [World.empty] at hd⟩

/-- No action removes or changes a widget: the widget list only grows at its
end. -/
theorem step_widgets_grow (lib : JSRLib) (w : World) (a : Action) :
    ∃ ws, (step lib w a).widgets = w.widgets ++ ws := by
  cases a with
  | create tag => exact ⟨[], by simp [step, createElement]⟩
  | setAttribute n name value => exact ⟨[], by simp [step]⟩
  | setProperty n name value => exact ⟨[], by simp [step]⟩
  | listen n type capture handler => exact ⟨[], by simp [step]⟩
  | insert p c =>
    refine ⟨[], ?_⟩
    simp only [step, List.append_nil]
    split
    · unfold appendChild
      split
      · rfl
      · exact (insertNode_frame p c w).2.2
    · rfl
  | remove c => exact ⟨[], by simp [step, (removeNode_frame c w).2.2]⟩
  | connect host =>
    simp only [step]
    split
    · rcases (connectedCallback_frame lib host w).2.2 with hw | ⟨i, o, hw⟩
      · exact ⟨[], by rw [hw, List.append_nil]⟩
      · exact ⟨_, hw⟩
    · exact ⟨[], by simp⟩
  | notify jsr type elem value =>
    exact ⟨[], by simp [step, (notify_frame jsr type elem value w).2.1]⟩

theorem run_widgets_grow (lib : JSRLib) (acts : List Action) :
    ∀ w : World, ∃ ws, (run lib w acts).widgets = w.widgets ++ ws := by
  induction acts with
  | nil => intro w; exact ⟨[], by simp [run]⟩
  | cons a acts ih =>
    intro w
    obtain ⟨ws1, h1⟩ := step_widgets_grow lib w a
    obtain ⟨ws2, h2⟩ := ih (step lib w a)
    refine ⟨ws1 ++ ws2, ?_⟩
    show (run lib (step lib w a) acts).widgets = _
    rw [h2, h1, List.append_assoc]

/-! ## Supporting lemmas: the parts of one `connectedCallback` run -/

theorem connectedCallback_nodes (lib : JSRLib) (w : World) (this : Nat)
    (hwf : wf w = true) (hthis : this < w.nodes.length) :
    (connectedCallback lib this w).world.nodes = nodesAfterConnect this w.nodes := by
  rw [connectedCallback_eq lib w this hwf hthis]
  cases lib.rejects w.nodes.length (jsrOptions w this) <;> rfl

theorem connectedCallback_jsrCalls (lib : JSRLib) (w : World) (this : Nat)
    (hwf : wf w = true) (hthis : this < w.nodes.length) :
    (connectedCallback lib this w).world.jsrCalls =
      w.jsrCalls ++ [(w.nodes.length, jsrOptions w this)] := by
  rw [connectedCallback_eq lib w this hwf hthis]
  cases lib.rejects w.nodes.length (jsrOptions w this) <;> rfl

theorem connectedCallback_accepted (lib : JSRLib) (w : World) (this : Nat)
    (hwf : wf w = true) (hthis : this < w.nodes.length)
    (hacc : lib.rejects w.nodes.length (jsrOptions w this) = none) :
    (connectedCallback lib this w).thrown = none ∧
      (connectedCallback lib this w).world.widgets =
        w.widgets ++ [{ input := w.nodes.length, options := jsrOptions w this,
                        listeners := [("update", Callback.onUpdate this)] }] := by
  rw [connectedCallback_eq lib w this hwf hthis, hacc]
  exact ⟨rfl, rfl⟩

theorem connectedCallback_rejected (lib : JSRLib) (w : World) (this : Nat) (err : JSValue)
    (hwf : wf w = true) (hthis : this < w.nodes.length)
    (hrej : lib.rejects w.nodes.length (jsrOptions w this) = some err) :
    (connectedCallback lib this w).thrown = some err ∧
      (connectedCallback lib this w).world.widgets = w.widgets := by
  rw [connectedCallback_eq lib w this hwf hthis, hrej]
  exact ⟨rfl, rfl⟩

theorem nodesAfterConnect_new (this : Nat) (nodes : List Element) :
    (nodesAfterConnect this nodes)[nodes.length]? =
      some { Element.fresh "input" with parent := some this } := by
  unfold nodesAfterConnect
  rw [List.getElem?_append_right (by rw [List.length_modify]), List.length_modify]
  simp

theorem nodesAfterConnect_old (this : Nat) (nodes : List Element) (c : Nat)
    (hc : c < nodes.length) :
    (nodesAfterConnect this nodes)[c]? =
      (nodes[c]?).map (fun e =>
        if this = c then { e with children := e.children ++ [nodes.length] } else e) := by
  unfold nodesAfterConnect
  rw [List.getElem?_append_left (by rw [List.length_modify]; exact hc), List.getElem?_modify]
  rfl

theorem childrenOf_connectedCallback (lib : JSRLib) (w : World) (this : Nat)
    (hwf : wf w = true) (hthis : this < w.nodes.length) :
    childrenOf (connectedCallback lib this w).world this =
      childrenOf w this ++ [w.nodes.length] := by
  unfold childrenOf
  rw [connectedCallback_nodes lib w this hwf hthis, nodesAfterConnect_old this _ this hthis]
  have hsome : w.nodes[this]? = some (w.nodes[this]) := List.getElem?_eq_getElem hthis
  rw [hsome]
  simp

theorem jsrOptions_eq (w : World) (this : Nat) (m v : JSValue)
    (hmax : getProperty w this "max" = m) (hval : getProperty w this "val" = v) :
    jsrOptions w this = { max := m, values := [v], sliders := 1, grid := false } := by
  unfold jsrOptions
  rw [hmax, hval]

/-! ## C1 -/

/-- C1: on a well-formed world, for a host without children whose `max` is `m`
and whose `val` is `v`, one run of `connectedCallback` leaves the host with
exactly one child, a newly created `input` element whose parent is the host;
creates no other node; makes exactly one `new JSR` call, on that input, with the
options `{max: m, values: [v], sliders: 1, grid: false}`; and, when the library
accepts the call, returns normally with exactly one new widget, bound to that
input, carrying those options. -/
theorem connectedCallback_one_input_one_widget (lib : JSRLib) (w : World) (this : Nat)
    (m v : JSValue) (hwf : wf w = true) (hthis : this < w.nodes.length)
    (hkids : childrenOf w this = [])
    (hmax : getProperty w this "max" = m) (hval : getProperty w this "val" = v) :
    childrenOf (connectedCallback lib this w).world this = [w.nodes.length] ∧
      (connectedCallback lib this w).world.nodes[w.nodes.length]? =
        some { Element.fresh "input" with parent := some this } ∧
      (connectedCallback lib this w).world.nodes.length = w.nodes.length + 1 ∧
      (connectedCallback lib this w).world.jsrCalls =
        w.jsrCalls ++
          [(w.nodes.length, { max := m, values := [v], sliders := 1, grid := false })] ∧
      (lib.rejects w.nodes.length { max := m, values := [v], sliders := 1, grid := false } = none →
        (connectedCallback lib this w).thrown = none ∧
          (connectedCallback lib this w).world.widgets =
            w.widgets ++
              [{ input := w.nodes.length,
                 options := { max := m, values := [v], sliders := 1, grid := false },
                 listeners := [("update", Callback.onUpdate this)] }]) := by
  have hopts := jsrOptions_eq w this m v hmax hval
  refine ⟨?_, ?_, ?_, ?_, ?_⟩
  · rw [childrenOf_connectedCallback lib w this hwf hthis, hkids]
    rfl
  · rw [connectedCallback_nodes lib w this hwf hthis]
    exact nodesAfterConnect_new this w.nodes
  · rw [connectedCallback_nodes lib w this hwf hthis]
    exact nodesAfterConnect_length this w.nodes
  · rw [connectedCallback_jsrCalls lib w this hwf hthis, hopts]
  · intro hacc
    rw [← hopts] at hacc ⊢
    exact connectedCallback_accepted lib w this hwf hthis hacc

/-- C1 on the example page: with `max` 10 and `val` 3 the host gets the one
child input (node 2) and the widget receives `max` 10 and `values` [3]. -/
theorem connectedCallback_one_input_one_widget_witness :
    childrenOf (connectedCallback JSRLib.lenient 1 page).world 1 = [2] ∧
      (connectedCallback JSRLib.lenient 1 page).world.jsrCalls =
        [(2, { max := JSValue.num 10, values := [JSValue.num 3], sliders := 1, grid := false })] ∧
      (connectedCallback JSRLib.lenient 1 page).world.widgets =
        [{ input := 2,
           options := { max := JSValue.num 10, values := [JSValue.num 3], sliders := 1,
                        grid := false },
           listeners := [("update", Callback.onUpdate 1)] }] := by
  have h := connectedCallback_one_input_one_widget JSRLib.lenient page 1
    (JSValue.num 10) (JSValue.num 3) (by decide) (by decide) (by decide) (by decide) (by decide)
  exact ⟨h.1, h.2.2.2.1, (h.2.2.2.2 rfl).2⟩

/-! ## C2 -/

/-- C2: after `connectedCallback` has run on a host and the library accepted the
construction, and after any further actions on the page, an `update`
notification `(elem, v)` from the widget that this run created appends exactly
one entry to the dispatch trace: target the host itself, event `slide` with
detail `{userSlidTo: v}`, whatever `elem` is. -/
theorem update_dispatches_one_slide_on_host (lib : JSRLib) (w : World) (this : Nat)
    (hwf : wf w = true) (hthis : this < w.nodes.length)
    (hacc : lib.rejects w.nodes.length (jsrOptions w this) = none)
    (acts : List Action) (elem v : JSValue) :
    (run lib (connectedCallback lib this w).world acts).widgets[w.widgets.length]? =
        some { input := w.nodes.length, options := jsrOptions w this,
               listeners := [("update", Callback.onUpdate this)] } ∧
      (notify w.widgets.length "update" elem v
          (run lib (connectedCallback lib this w).world acts)).dispatched =
        (run lib (connectedCallback lib this w).world acts).dispatched ++
          [(this, { type := "slide", bubbles := false, cancelable := false, composed := false,
                    detail := some [("userSlidTo", v)] })] := by
  obtain ⟨ws, hws⟩ := run_widgets_grow lib acts (connectedCallback lib this w).world
  have hw1 := (connectedCallback_accepted lib w this hwf hthis hacc).2
  have hget : (run lib (connectedCallback lib this w).world acts).widgets[w.widgets.length]? =
      some { input := w.nodes.length, options := jsrOptions w this,
             listeners := [("update", Callback.onUpdate this)] } := by
    rw [hws, hw1, List.append_assoc, List.getElem?_append_right (le_refl _)]
    simp
  refine ⟨hget, ?_⟩
  rw [notify_relay _ _ _ this hget rfl]
  simp [dispatchEvent, slideEvent]

/-- C2 on the example page: the update notification with value 5 yields exactly
one `slide` event on the host (node 1) with `userSlidTo` 5. -/
theorem update_dispatches_one_slide_on_host_witness :
    (notify 0 "update" (JSValue.ref 2) (JSValue.num 5)
        (run JSRLib.lenient (connectedCallback JSRLib.lenient 1 page).world
          [Action.remove 1])).dispatched =
      [(1, { type := "slide", bubbles := false, cancelable := false, composed := false,
             detail := some [("userSlidTo", JSValue.num 5)] })] :=
  (update_dispatches_one_slide_on_host JSRLib.lenient page 1 (by decide) (by decide) rfl
    [Action.remove 1] (JSValue.ref 2) (JSValue.num 5)).2

/-! ## C3 -/

theorem mem_invoke (w : World) (ev : CustomEvent) (sel : DomListener → Bool) (n : Nat)
    (d : Delivery) :
    d ∈ invoke w ev sel n ↔
      ∃ e, w.nodes[n]? = some e ∧ d.listener ∈ e.listeners ∧ d.listener.type = ev.type ∧
        sel d.listener = true ∧ d.node = n ∧ d.event = ev := by
  unfold invoke
  cases hn : w.nodes[n]? with
  | none => simp
  | some e =>
    simp only [List.mem_map, List.mem_filter, Bool.and_eq_true, beq_iff_eq, Option.some.injEq,
      exists_eq_left']
    constructor
    · rintro ⟨l, ⟨hl, ht, hs⟩, rfl⟩
      exact ⟨hl, ht, hs, rfl, rfl⟩
    · rintro ⟨hl, ht, hs, hnode, hev⟩
      refine ⟨d.listener, ⟨hl, ht, hs⟩, ?_⟩
      cases d
      simp only at hnode hev
      rw [hnode, hev]

/-- C3, as the code has it: every event the page has seen dispatched is a
`slide` event whose `bubbles` flag is false (the arrow function passes only
`detail` to `CustomEvent`); the relay adds exactly that event on the host; and
among the listener invocations that the relay's dispatch adds, one on a node
other than the host, that is on an ancestor, is always of a capturing listener,
so a non-capturing listener on an ancestor is not invoked. -/
theorem slide_event_does_not_bubble (lib : JSRLib) (acts : List Action) (w : World)
    (host : Nat) (elem v : JSValue) :
    (∀ d ∈ (run lib World.empty acts).dispatched, d.2.type = "slide" ∧ d.2.bubbles = false) ∧
      ((Callback.onUpdate host).call elem v w).dispatched =
        w.dispatched ++
          [(host, { type := "slide", bubbles := false, cancelable := false, composed := false,
                    detail := some [("userSlidTo", v)] })] ∧
      (∀ d ∈ ((Callback.onUpdate host).call elem v w).delivered.drop w.delivered.length,
        d.node ≠ host → d.listener.capture = true) := by
  refine ⟨?_, rfl, ?_⟩
  · intro d hd
    have hinv := relayInv_run lib (fun _ => True) acts World.empty (fun _ _ => trivial)
      (relayInv_empty _)
    obtain ⟨_, value, hval⟩ := hinv.2 d hd
    rw [hval]
    exact ⟨rfl, rfl⟩
  · intro d hd hne
    have hdel : ((Callback.onUpdate host).call elem v w).delivered =
        w.delivered ++ propagate w host (slideEvent v) := rfl
    rw [hdel, List.drop_left] at hd
    unfold propagate at hd
    have hb : (slideEvent v).bubbles = false := rfl
    simp only [hb, Bool.false_eq_true, if_false, List.append_nil, List.mem_append,
      List.mem_flatten, List.mem_map, List.mem_reverse] at hd
    rcases hd with ⟨l, ⟨n, _, rfl⟩, hl⟩ | hd | hd
    · exact ((mem_invoke _ _ _ _ _).1 hl).choose_spec.2.2.2.1
    · exact absurd ((mem_invoke _ _ _ _ _).1 hd).choose_spec.2.2.2.2.1 hne
    · exact absurd ((mem_invoke _ _ _ _ _).1 hd).choose_spec.2.2.2.2.1 hne

/-- C3 on the example page with a second, capturing listener on the `div`: the
one invocation on the ancestor (node 0) that the relay's dispatch adds is of the
capturing listener (handler 3); the non-capturing one (handler 7) is absent. -/
theorem slide_event_does_not_bubble_witness :
    (((Callback.onUpdate 1).call (JSValue.ref 2) (JSValue.num 5) capturePage).delivered.drop
        capturePage.delivered.length).filter (fun d => d.node == 0) =
      [{ node := 0, listener := { type := "slide", capture := true, handler := 3 },
         event := slideEvent (JSValue.num 5) }] ∧
      (0 : Nat) ≠ 1 ∧
      ({ type := "slide", capture := true, handler := 3 } : DomListener).capture = true :=
  ⟨by decide, by decide,
    (slide_event_does_not_bubble JSRLib.lenient [] capturePage 1 (JSValue.ref 2)
      (JSValue.num 5)).2.2
      { node := 0, listener := { type := "slide", capture := true, handler := 3 },
        event := slideEvent (JSValue.num 5) } (by decide) (by decide)⟩

/-- C3 refuted on the example page: the host (node 1) has the ancestor node 0,
node 0 has a `slide` listener, one `slide` event was dispatched on the host, its
`bubbles` flag is false, and no listener of node 0 was invoked. -/
theorem slide_event_not_seen_by_ancestor :
    ancestors bubbleProbe 1 = [0] ∧
      (bubbleProbe.nodes[0]?).map (fun e => e.listeners) =
        some [{ type := "slide", capture := false, handler := 7 }] ∧
      bubbleProbe.dispatched.map (fun d => (d.1, d.2.type, d.2.bubbles)) =
        [(1, "slide", false)] ∧
      bubbleProbe.delivered.filter (fun d => d.node == 0) = [] := by
  decide

/-! ## C4 -/

theorem getProperty_setAttribute (lib : JSRLib) (w : World) (n : Nat) (k value : String)
    (this : Nat) (name : String) :
    getProperty (step lib w (Action.setAttribute n k value)) this name =
      getProperty w this name := by
  simp only [step, getProperty]
  rw [List.getElem?_modify]
  cases w.nodes[this]? with
  | none => rfl
  | some e =>
    by_cases h : n = this <;> simp [h]

/-- C4, as the code has it: the options of the one `new JSR` call carry
`max` = the host's property `max` and `values` = [the host's property `val`],
as `this.max` and `this.val` evaluate at that moment; two hosts that agree on
these two properties get equal options; and setting a content attribute on any
node beforehand does not change the options. -/
theorem options_read_from_properties (lib : JSRLib) (w1 w2 : World) (h1 h2 : Nat)
    (hwf1 : wf w1 = true) (hh1 : h1 < w1.nodes.length)
    (hwf2 : wf w2 = true) (hh2 : h2 < w2.nodes.length) :
    (connectedCallback lib h1 w1).world.jsrCalls =
        w1.jsrCalls ++
          [(w1.nodes.length,
            { max := getProperty w1 h1 "max", values := [getProperty w1 h1 "val"],
              sliders := 1, grid := false })] ∧
      (getProperty w1 h1 "max" = getProperty w2 h2 "max" →
        getProperty w1 h1 "val" = getProperty w2 h2 "val" →
        ((connectedCallback lib h1 w1).world.jsrCalls.getLast?).map Prod.snd =
          ((connectedCallback lib h2 w2).world.jsrCalls.getLast?).map Prod.snd) ∧
      (∀ n name value,
        ((connectedCallback lib h1
            (step lib w1 (Action.setAttribute n name value))).world.jsrCalls.getLast?).map
            Prod.snd =
          ((connectedCallback lib h1 w1).world.jsrCalls.getLast?).map Prod.snd) := by
  refine ⟨connectedCallback_jsrCalls lib w1 h1 hwf1 hh1, ?_, ?_⟩
  · intro hm hv
    rw [connectedCallback_jsrCalls lib w1 h1 hwf1 hh1,
      connectedCallback_jsrCalls lib w2 h2 hwf2 hh2]
    simp [jsrOptions, hm, hv]
  · intro n name value
    have hwf3 := wf_step lib w1 (Action.setAttribute n name value) hwf1
    have hlen : (step lib w1 (Action.setAttribute n name value)).nodes.length =
        w1.nodes.length := by
      simp [step, List.length_modify]
    rw [connectedCallback_jsrCalls lib _ h1 hwf3 (by rw [hlen]; exact hh1),
      connectedCallback_jsrCalls lib w1 h1 hwf1 hh1]
    simp [jsrOptions, getProperty_setAttribute]

/-- C4 on two example pages: a host with properties 10 and 3 and a host with
properties 7 and 2 get the options of their own properties. -/
theorem options_read_from_properties_witness :
    (connectedCallback JSRLib.lenient 1 page).world.jsrCalls =
      [(2, { max := JSValue.num 10, values := [JSValue.num 3], sliders := 1, grid := false })] :=
  (options_read_from_properties JSRLib.lenient page markupAndPropsPage 1 0
    (by decide) (by decide) (by decide) (by decide)).1

/-- C4 refuted: two hosts with the same attributes `max="10"` and `val="3"` get
different options; the host without properties gets `undefined` for both, not
the attribute values. -/
theorem options_ignore_attributes :
    getAttribute markupOnlyPage 0 "max" = some "10" ∧
      getAttribute markupOnlyPage 0 "val" = some "3" ∧
      getAttribute markupAndPropsPage 0 "max" = some "10" ∧
      getAttribute markupAndPropsPage 0 "val" = some "3" ∧
      (connectedCallback JSRLib.lenient 0 markupOnlyPage).world.jsrCalls =
        [(1, { max := JSValue.undefined, values := [JSValue.undefined], sliders := 1,
               grid := false })] ∧
      (connectedCallback JSRLib.lenient 0 markupAndPropsPage).world.jsrCalls =
        [(1, { max := JSValue.num 7, values := [JSValue.num 2], sliders := 1,
               grid := false })] := by
  decide

/-! ## C5 -/

/-- C5: in every state reached from the empty page by a sequence of actions
that contains no `connect` of `h`, no event has been dispatched on `h`; and a
run of `connectedCallback` adds nothing to the dispatch trace. -/
theorem no_slide_before_attach (lib : JSRLib) (acts : List Action) (h : Nat) (w : World)
    (this : Nat) :
    (Action.connect h ∉ acts → eventsOn (run lib World.empty acts) h = []) ∧
      (connectedCallback lib this w).world.dispatched = w.dispatched := by
  refine ⟨?_, (connectedCallback_frame lib this w).1⟩
  intro hnot
  have hinv := relayInv_run lib (fun n => Action.connect n ∈ acts) acts World.empty
    (fun _ hh => hh) (relayInv_empty _)
  unfold eventsOn
  rw [List.map_eq_nil_iff, List.filter_eq_nil_iff]
  intro d hd hdh
  have hmem := (hinv.2 d hd).1
  rw [beq_iff_eq] at hdh
  rw [hdh] at hmem
  exact hnot hmem

/-- C5 on an example: a host that is never attached has an empty event list. -/
theorem no_slide_before_attach_witness :
    Action.connect 0 ∉ unattachedActions ∧
      eventsOn (run JSRLib.lenient World.empty unattachedActions) 0 = [] :=
  ⟨by decide,
    (no_slide_before_attach JSRLib.lenient unattachedActions 0 World.empty 0).1 (by decide)⟩

/-! ## C7 -/

/-- C7: loading the file into a registry that has neither the name nor the
class appends exactly the definition `range-slider` ↦ `RangeSlider`; whenever
loading succeeds, `range-slider` is the only name under which `RangeSlider` is
registered; on the registry of a fresh page it succeeds. -/
theorem loadScript_registers_range_slider (reg : Registry) :
    (reg.any (fun d => d.1 == "range-slider") = false →
      reg.any (fun d => d.2 == ElementClass.RangeSlider) = false →
      loadScript reg = Except.ok (reg ++ [("range-slider", ElementClass.RangeSlider)])) ∧
    (∀ reg1, loadScript reg = Except.ok reg1 →
      namesOf reg1 ElementClass.RangeSlider = ["range-slider"]) ∧
    loadScript [] = Except.ok [("range-slider", ElementClass.RangeSlider)] := by
  have hvalid : isValidCustomElementName "range-slider" = true := by decide
  refine ⟨?_, ?_, rfl⟩
  · intro h1 h2
    simp [loadScript, customElementsDefine, hvalid, h1, h2]
  · intro reg1 h
    unfold loadScript customElementsDefine at h
    simp only [hvalid, Bool.not_true, Bool.false_eq_true, if_false] at h
    split at h
    · simp at h
    · split at h
      · simp at h
      · rename_i hname hcls
        simp only [Except.ok.injEq] at h
        subst h
        have hnone : reg.filter (fun d => d.2 == ElementClass.RangeSlider) = [] := by
          rw [List.filter_eq_nil_iff]
          intro d hd hdc
          exact hcls (List.any_eq_true.2 ⟨d, hd, hdc⟩)
        simp [namesOf, List.filter_append, hnone]

/-- C7 on a page where another element is already defined. -/
theorem loadScript_registers_range_slider_witness :
    loadScript [("other-element", ElementClass.other 0)] =
        Except.ok [("other-element", ElementClass.other 0),
                   ("range-slider", ElementClass.RangeSlider)] ∧
      namesOf [("other-element", ElementClass.other 0),
               ("range-slider", ElementClass.RangeSlider)] ElementClass.RangeSlider =
        ["range-slider"] :=
  ⟨(loadScript_registers_range_slider [("other-element", ElementClass.other 0)]).1
      (by decide) (by decide),
    (loadScript_registers_range_slider [("other-element", ElementClass.other 0)]).2.1 _
      ((loadScript_registers_range_slider [("other-element", ElementClass.other 0)]).1
        (by decide) (by decide))⟩

/-! ## C9 -/

/-- C9: a run of `connectedCallback` that the library accepts adds one widget
whose registered callbacks are exactly one, for the type `update`; and in every
state reached from the empty page, a notification of any other type on any
widget leaves the world as it is, so it dispatches nothing. -/
theorem only_update_is_relayed (lib : JSRLib) (w : World) (this : Nat)
    (acts : List Action) (jsr : Nat) (type : String) (elem v : JSValue) :
    (wf w = true → this < w.nodes.length →
      lib.rejects w.nodes.length (jsrOptions w this) = none →
      ((connectedCallback lib this w).world.widgets.drop w.widgets.length).map
        (fun wd => wd.listeners) = [[("update", Callback.onUpdate this)]]) ∧
      (type ≠ "update" →
        notify jsr type elem v (run lib World.empty acts) = run lib World.empty acts) := by
  constructor
  · intro hwf hthis hacc
    rw [(connectedCallback_accepted lib w this hwf hthis hacc).2]
    simp
  · intro htype
    have hinv := relayInv_run lib (fun _ => True) acts World.empty (fun _ _ => trivial)
      (relayInv_empty _)
    cases hw : (run lib World.empty acts).widgets[jsr]? with
    | none =>
      unfold notify
      rw [hw]
    | some wd =>
      obtain ⟨h, hl, _⟩ := hinv.1 wd (List.mem_iff_getElem?.2 ⟨jsr, hw⟩)
      rw [notify_relay _ jsr wd h hw hl, if_neg htype]

/-- C9 on the example page: after attachment, a `change` notification on the
widget dispatches nothing. -/
theorem only_update_is_relayed_witness :
    "change" ≠ "update" ∧
      ((connectedCallback JSRLib.lenient 1 page).world.widgets.drop page.widgets.length).map
        (fun wd => wd.listeners) = [[("update", Callback.onUpdate 1)]] ∧
      (notify 0 "change" (JSValue.ref 2) (JSValue.num 5)
        (run JSRLib.lenient World.empty (pageActions ++ [Action.connect 1]))).dispatched = [] := by
  have h := only_update_is_relayed JSRLib.lenient page 1
    (pageActions ++ [Action.connect 1]) 0 "change" (JSValue.ref 2) (JSValue.num 5)
  refine ⟨by decide, h.1 (by decide) (by decide) rfl, ?_⟩
  rw [h.2 (by decide)]
  decide

/-! ## C10 -/

theorem foldl_call_dispatched (elem value : JSValue) (ls : List (String × Callback)) :
    ∀ w : World,
      (ls.foldl (fun acc l => l.2.call elem value acc) w).dispatched =
        w.dispatched ++ ls.map (fun l =>
          match l.2 with
          | Callback.onUpdate h => (h, slideEvent value)) := by
  induction ls with
  | nil => intro w; simp
  | cons l ls ih =>
    intro w
    rw [List.foldl_cons, ih]
    obtain ⟨t, cb⟩ := l
    cases cb
    simp [call_onUpdate, dispatchEvent]

/-- The dispatch trace after a notification is a function of the widgets and the
trace before it. -/
theorem notify_dispatched_congr (jsr : Nat) (type : String) (elem value : JSValue)
    (w1 w2 : World) (hw : w1.widgets = w2.widgets) (hd : w1.dispatched = w2.dispatched) :
    (notify jsr type elem value w1).dispatched = (notify jsr type elem value w2).dispatched := by
  unfold notify
  rw [hw]
  cases w2.widgets[jsr]? with
  | none => exact hd
  | some wd =>
    simp only
    rw [foldl_call_dispatched, foldl_call_dispatched, hd]

theorem run_notifications_congr (lib : JSRLib) (ns : List Action)
    (hns : ∀ a ∈ ns, ∃ j t e v, a = Action.notify j t e v) :
    ∀ w1 w2 : World, w1.widgets = w2.widgets → w1.dispatched = w2.dispatched →
      (run lib w1 ns).dispatched = (run lib w2 ns).dispatched := by
  induction ns with
  | nil => intro w1 w2 _ hd; exact hd
  | cons a ns ih =>
    intro w1 w2 hw hd
    obtain ⟨j, t, e, v, rfl⟩ := hns _ (List.mem_cons_self _ _)
    refine ih (fun a ha => hns a (List.mem_cons_of_mem _ ha)) _ _ ?_ ?_
    · show (notify j t e v w1).widgets = (notify j t e v w2).widgets
      rw [(notify_frame j t e v w1).2.1, (notify_frame j t e v w2).2.1, hw]
    · exact notify_dispatched_congr j t e v w1 w2 hw hd

/-- C10: when the library rejects the construction with `err`, `connectedCallback`
ends by throwing `err`; the input it created is in the node table with the host
as parent and is the last child of the host; no widget was added, hence no
callback registered; nothing was dispatched; and after any sequence of widget
notifications the dispatch trace is what it would be had the run not
happened. -/
theorem connectedCallback_not_atomic (lib : JSRLib) (w : World) (this : Nat) (err : JSValue)
    (hwf : wf w = true) (hthis : this < w.nodes.length)
    (hrej : lib.rejects w.nodes.length (jsrOptions w this) = some err)
    (ns : List Action) (hns : ∀ a ∈ ns, ∃ j t e v, a = Action.notify j t e v) :
    (connectedCallback lib this w).thrown = some err ∧
      childrenOf (connectedCallback lib this w).world this =
        childrenOf w this ++ [w.nodes.length] ∧
      (connectedCallback lib this w).world.nodes[w.nodes.length]? =
        some { Element.fresh "input" with parent := some this } ∧
      (connectedCallback lib this w).world.widgets = w.widgets ∧
      (connectedCallback lib this w).world.dispatched = w.dispatched ∧
      (run lib (connectedCallback lib this w).world ns).dispatched =
        (run lib w ns).dispatched := by
  have hr := connectedCallback_rejected lib w this err hwf hthis hrej
  have hd := (connectedCallback_frame lib this w).1
  refine ⟨hr.1, childrenOf_connectedCallback lib w this hwf hthis, ?_, hr.2, hd, ?_⟩
  · rw [connectedCallback_nodes lib w this hwf hthis]
    exact nodesAfterConnect_new this w.nodes
  · exact run_notifications_congr lib ns hns _ _ hr.2 hd

/-- C10 on the example page with a library that rejects everything: the error
comes out, the input (node 2) stays under the host, there is no widget, and a
later `update` notification dispatches nothing. -/
theorem connectedCallback_not_atomic_witness :
    (connectedCallback (JSRLib.strict (JSValue.str "invalid config")) 1 page).thrown =
        some (JSValue.str "invalid config") ∧
      childrenOf (connectedCallback (JSRLib.strict (JSValue.str "invalid config")) 1 page).world 1 =
        [2] ∧
      (connectedCallback (JSRLib.strict (JSValue.str "invalid config")) 1 page).world.widgets =
        [] ∧
      (run (JSRLib.strict (JSValue.str "invalid config"))
          (connectedCallback (JSRLib.strict (JSValue.str "invalid config")) 1 page).world
          [Action.notify 0 "update" (JSValue.ref 2) (JSValue.num 5)]).dispatched = [] := by
  have h := connectedCallback_not_atomic (JSRLib.strict (JSValue.str "invalid config")) page 1
    (JSValue.str "invalid config") (by decide) (by decide) rfl
    [Action.notify 0 "update" (JSValue.ref 2) (JSValue.num 5)]
    (by
      intro a ha
      rw [List.mem_singleton] at ha
      exact ⟨_, _, _, _, ha⟩)
  exact ⟨h.1, h.2.1, h.2.2.2.1, h.2.2.2.2.2⟩

/-! ## C6 -/

theorem connectedCallback_old_node (lib : JSRLib) (w : World) (this c : Nat)
    (hwf : wf w = true) (hthis : this < w.nodes.length) (hc : c < w.nodes.length)
    (hne : c ≠ this) :
    (connectedCallback lib this w).world.nodes[c]? = w.nodes[c]? := by
  rw [connectedCallback_nodes lib w this hwf hthis, nodesAfterConnect_old this _ c hc]
  have h1 : ¬ this = c := fun h => hne h.symm
  cases w.nodes[c]? <;> simp [h1]

theorem connectedCallback_tag (lib : JSRLib) (w : World) (this c : Nat)
    (hwf : wf w = true) (hthis : this < w.nodes.length) (hc : c < w.nodes.length) :
    ((connectedCallback lib this w).world.nodes[c]?).map (fun e => e.tag) =
      (w.nodes[c]?).map (fun e => e.tag) := by
  rw [connectedCallback_nodes lib w this hwf hthis, nodesAfterConnect_old this _ c hc]
  cases w.nodes[c]? with
  | none => rfl
  | some e => by_cases h : this = c <;> simp [h]

theorem getProperty_connectedCallback (lib : JSRLib) (w : World) (this : Nat)
    (name : String) (hwf : wf w = true) (hthis : this < w.nodes.length) :
    getProperty (connectedCallback lib this w).world this name = getProperty w this name := by
  unfold getProperty
  rw [connectedCallback_nodes lib w this hwf hthis, nodesAfterConnect_old this _ this hthis]
  cases w.nodes[this]? <;> simp

theorem childrenOf_lt (w : World) (hwf : wf w = true) (n c : Nat)
    (hc : c ∈ childrenOf w n) : c < w.nodes.length := by
  unfold childrenOf at hc
  cases hn : w.nodes[n]? with
  | none => simp [hn] at hc
  | some e =>
    simp only [hn] at hc
    exact (((wf_iff w).1 hwf).1 e (List.mem_iff_getElem?.2 ⟨n, hn⟩)).2 c hc

theorem childInputs_connectedCallback (lib : JSRLib) (w : World) (this : Nat)
    (hwf : wf w = true) (hthis : this < w.nodes.length) :
    childInputs (connectedCallback lib this w).world this =
      childInputs w this ++ [w.nodes.length] := by
  unfold childInputs
  rw [childrenOf_connectedCallback lib w this hwf hthis, List.filter_append]
  congr 1
  · apply List.filter_congr
    intro c hc
    have hlt := childrenOf_lt w hwf this c hc
    have ht := connectedCallback_tag lib w this c hwf hthis hlt
    cases h1 : (connectedCallback lib this w).world.nodes[c]? with
    | none =>
      cases h2 : w.nodes[c]? with
      | none => rfl
      | some e => rw [h1, h2] at ht; simp at ht
    | some e1 =>
      cases h2 : w.nodes[c]? with
      | none => rw [h1, h2] at ht; simp at ht
      | some e =>
        rw [h1, h2] at ht
        simp only [Option.map_some', Option.some.injEq] at ht
        simp only [ht]
  · have hnew : (connectedCallback lib this w).world.nodes[w.nodes.length]? =
        some { Element.fresh "input" with parent := some this } := by
      rw [connectedCallback_nodes lib w this hwf hthis]
      exact nodesAfterConnect_new this w.nodes
    simp [List.filter, hnew, Element.fresh]

theorem connectN_wf (lib : JSRLib) (w : World) (this : Nat)
    (hwf : wf w = true) (hthis : this < w.nodes.length) :
    ∀ n, wf (connectN lib this n w) = true ∧
      (connectN lib this n w).nodes.length = w.nodes.length + n := by
  intro n
  induction n with
  | zero => exact ⟨hwf, rfl⟩
  | succ k ih =>
    have hlt : this < (connectN lib this k w).nodes.length := by rw [ih.2]; omega
    refine ⟨wf_connectedCallback lib _ this ih.1 hlt, ?_⟩
    show (connectedCallback lib this (connectN lib this k w)).world.nodes.length = _
    rw [connectedCallback_nodes lib _ this ih.1 hlt, nodesAfterConnect_length, ih.2]
    omega

theorem connectN_lt (lib : JSRLib) (w : World) (this : Nat)
    (hwf : wf w = true) (hthis : this < w.nodes.length) (n : Nat) :
    this < (connectN lib this n w).nodes.length := by
  rw [(connectN_wf lib w this hwf hthis n).2]
  exact Nat.lt_add_right n hthis

theorem connectN_jsrOptions (lib : JSRLib) (w : World) (this : Nat)
    (hwf : wf w = true) (hthis : this < w.nodes.length) :
    ∀ n, jsrOptions (connectN lib this n w) this = jsrOptions w this := by
  intro n
  induction n with
  | zero => rfl
  | succ k ih =>
    rw [← ih]
    show jsrOptions (connectedCallback lib this (connectN lib this k w)).world this = _
    unfold jsrOptions
    rw [getProperty_connectedCallback lib _ this "max" (connectN_wf lib w this hwf hthis k).1
        (connectN_lt lib w this hwf hthis k),
      getProperty_connectedCallback lib _ this "val" (connectN_wf lib w this hwf hthis k).1
        (connectN_lt lib w this hwf hthis k)]

/-- C6: on a well-formed world, `n` runs of `connectedCallback` on the same
host create exactly `n` nodes, all of them `input` elements with the host as
parent; the host's children are the earlier children, unchanged and in order,
followed by the `n` new inputs in creation order, each run appending its input
last; the host has `n` more child inputs; every other earlier node is untouched;
`n` constructor calls are made, one per new input; and when the library accepts
them there are `n` more widgets, bound one to one to the new inputs, so that
widget inputs stay pairwise distinct. -/
theorem connectedCallback_accumulates (lib : JSRLib) (w : World) (this : Nat) (n : Nat)
    (hwf : wf w = true) (hthis : this < w.nodes.length) :
    (connectN lib this n w).nodes.length = w.nodes.length + n ∧
      (∀ i, i < n → (connectN lib this n w).nodes[w.nodes.length + i]? =
        some { Element.fresh "input" with parent := some this }) ∧
      childrenOf (connectN lib this n w) this =
        childrenOf w this ++ List.range' w.nodes.length n ∧
      childrenOf (connectN lib this (n + 1) w) this =
        childrenOf (connectN lib this n w) this ++ [w.nodes.length + n] ∧
      (childInputs (connectN lib this n w) this).length = (childInputs w this).length + n ∧
      (∀ c, c < w.nodes.length → c ≠ this → (connectN lib this n w).nodes[c]? = w.nodes[c]?) ∧
      (connectN lib this n w).jsrCalls.map Prod.fst =
        w.jsrCalls.map Prod.fst ++ List.range' w.nodes.length n ∧
      ((∀ i o, lib.rejects i o = none) →
        (connectN lib this n w).widgets =
            w.widgets ++ (List.range' w.nodes.length n).map (fun i =>
              { input := i, options := jsrOptions w this,
                listeners := [("update", Callback.onUpdate this)] }) ∧
          ((w.widgets.map (fun wd => wd.input)).Nodup →
            ((connectN lib this n w).widgets.map (fun wd => wd.input)).Nodup)) := by
  have hW := connectN_wf lib w this hwf hthis
  have hL := connectN_lt lib w this hwf hthis
  have hstepc : ∀ k, childrenOf (connectN lib this (k + 1) w) this =
      childrenOf (connectN lib this k w) this ++ [w.nodes.length + k] := by
    intro k
    show childrenOf (connectedCallback lib this (connectN lib this k w)).world this = _
    rw [childrenOf_connectedCallback lib _ this (hW k).1 (hL k), (hW k).2]
  have hwidgets : (∀ i o, lib.rejects i o = none) → ∀ k,
      (connectN lib this k w).widgets =
        w.widgets ++ (List.range' w.nodes.length k).map (fun i =>
          { input := i, options := jsrOptions w this,
            listeners := [("update", Callback.onUpdate this)] }) := by
    intro hlen k
    induction k with
    | zero => simp [connectN]
    | succ k ih =>
      show (connectedCallback lib this (connectN lib this k w)).world.widgets = _
      rw [(connectedCallback_accepted lib _ this (hW k).1 (hL k) (hlen _ _)).2, ih,
        connectN_jsrOptions lib w this hwf hthis k, (hW k).2, List.range'_1_concat,
        List.map_append, List.append_assoc]
      rfl
  refine ⟨(hW n).2, ?_, ?_, hstepc n, ?_, ?_, ?_, ?_⟩
  · induction n with
    | zero => intro i hi; omega
    | succ k ih =>
      intro i hi
      show (connectedCallback lib this (connectN lib this k w)).world.nodes[_]? = _
      rcases Nat.lt_succ_iff_lt_or_eq.1 hi with hlt | heq
      · rw [connectedCallback_old_node lib _ this _ (hW k).1 (hL k)
          (by rw [(hW k).2]; omega) (by omega)]
        exact ih i hlt
      · subst heq
        rw [connectedCallback_nodes lib _ this (hW i).1 (hL i), ← (hW i).2]
        exact nodesAfterConnect_new this _
  · induction n with
    | zero => simp [connectN]
    | succ k ih => rw [hstepc k, ih, List.range'_1_concat, List.append_assoc]
  · induction n with
    | zero => rfl
    | succ k ih =>
      show (childInputs (connectedCallback lib this (connectN lib this k w)).world this).length = _
      rw [childInputs_connectedCallback lib _ this (hW k).1 (hL k), List.length_append, ih]
      simp only [List.length_singleton]
      omega
  · induction n with
    | zero => intro c _ _; rfl
    | succ k ih =>
      intro c hc hne
      show (connectedCallback lib this (connectN lib this k w)).world.nodes[c]? = _
      rw [connectedCallback_old_node lib _ this c (hW k).1 (hL k)
        (by rw [(hW k).2]; omega) hne]
      exact ih c hc hne
  · induction n with
    | zero => simp [connectN]
    | succ k ih =>
      show (connectedCallback lib this (connectN lib this k w)).world.jsrCalls.map Prod.fst = _
      rw [connectedCallback_jsrCalls lib _ this (hW k).1 (hL k), List.map_append, ih,
        (hW k).2, List.range'_1_concat, List.append_assoc]
      rfl
  · intro hlen
    refine ⟨hwidgets hlen n, ?_⟩
    intro hnd
    rw [hwidgets hlen n, List.map_append, List.map_map]
    have hid : ((fun wd : Widget => wd.input) ∘ fun i =>
        ({ input := i, options := jsrOptions w this,
           listeners := [("update", Callback.onUpdate this)] } : Widget)) = id := rfl
    rw [hid, List.map_id, List.nodup_append]
    refine ⟨hnd, List.nodup_range' _ _, ?_⟩
    intro x hx1 hx2
    obtain ⟨wd, hwd, rfl⟩ := List.mem_map.1 hx1
    have h1 := ((wf_iff w).1 hwf).2 wd hwd
    have h2 := (List.mem_range'_1.1 hx2).1
    omega

/-- C6 on the example page: three runs give the host three child inputs
(nodes 2, 3, 4) and three widgets bound to them. -/
theorem connectedCallback_accumulates_witness :
    childrenOf (connectN JSRLib.lenient 1 3 page) 1 = [2, 3, 4] ∧
      (childInputs (connectN JSRLib.lenient 1 3 page) 1).length = 3 ∧
      (connectN JSRLib.lenient 1 3 page).widgets.map (fun wd => wd.input) = [2, 3, 4] := by
  have h := connectedCallback_accumulates JSRLib.lenient page 1 3 (by decide) (by decide)
  refine ⟨h.2.2.1, h.2.2.2.2.1, ?_⟩
  rw [(h.2.2.2.2.2.2.2 (fun _ _ => rfl)).1]
  decide

/-! ## C8 -/

theorem tag_modify (f : Element → Element) (hf : ∀ e, (f e).tag = e.tag) (n : Nat)
    (l : List Element) (h : Nat) :
    ((List.modify f n l)[h]?).map (fun e => e.tag) = (l[h]?).map (fun e => e.tag) := by
  rw [List.getElem?_modify]
  cases l[h]? with
  | none => rfl
  | some e => by_cases hn : n = h <;> simp [hn, hf]

theorem tag_removeNode (c : Nat) (w : World) (h : Nat) :
    ((removeNode c w).nodes[h]?).map (fun e => e.tag) = (w.nodes[h]?).map (fun e => e.tag) := by
  unfold removeNode
  cases parentOf w c with
  | none => rfl
  | some p =>
    simp only
    refine (tag_modify _ ?_ _ _ _).trans ((tag_modify _ ?_ _ _ _).trans rfl)
    · intro e; rfl
    · intro e; rfl

theorem tag_insertNode (p c : Nat) (w : World) (h : Nat) :
    ((insertNode p c w).nodes[h]?).map (fun e => e.tag) = (w.nodes[h]?).map (fun e => e.tag) := by
  unfold insertNode
  simp only
  refine (tag_modify _ ?_ _ _ _).trans ((tag_modify _ ?_ _ _ _).trans (tag_removeNode c w h))
  · intro e; rfl
  · intro e; rfl

/-- No action changes the tag of an existing node. -/
theorem tag_step (lib : JSRLib) (w : World) (a : Action) (h : Nat)
    (hwf : wf w = true) (hlt : h < w.nodes.length) :
    ((step lib w a).nodes[h]?).map (fun e => e.tag) = (w.nodes[h]?).map (fun e => e.tag) := by
  cases a with
  | create tag =>
    simp only [step, createElement]
    rw [List.getElem?_append_left hlt]
  | setAttribute n name value =>
    refine tag_modify _ ?_ n w.nodes h
    intro e; rfl
  | setProperty n name value =>
    refine tag_modify _ ?_ n w.nodes h
    intro e; rfl
  | listen n type capture handler =>
    refine tag_modify _ ?_ n w.nodes h
    intro e; rfl
  | insert p c =>
    simp only [step]
    split
    · unfold appendChild
      split
      · rfl
      · exact tag_insertNode p c w h
    · rfl
  | remove c => exact tag_removeNode c w h
  | connect host =>
    simp only [step]
    split
    · rename_i hrs
      exact connectedCallback_tag lib w host h hwf (isRangeSlider_lt w host hrs) hlt
    · rfl
  | notify jsr type elem value =>
    simp only [step]
    rw [(notify_frame jsr type elem value w).1]

theorem isRangeSlider_eq (w : World) (h : Nat) :
    isRangeSlider w h = ((w.nodes[h]?).map (fun e => e.tag) == some "range-slider") := by
  unfold isRangeSlider
  cases w.nodes[h]? with
  | none => rfl
  | some e => simp

theorem isRangeSlider_step (lib : JSRLib) (w : World) (a : Action) (h : Nat)
    (hwf : wf w = true) (hrs : isRangeSlider w h = true) :
    isRangeSlider (step lib w a) h = true := by
  rw [isRangeSlider_eq] at hrs ⊢
  rw [tag_step lib w a h hwf (by
    by_contra hlt
    rw [List.getElem?_eq_none (Nat.le_of_not_lt hlt)] at hrs
    simp at hrs)]
  exact hrs

/-- One action changes the number of widgets relaying to `h` by one if it is a
`connect` of `h`, and not at all otherwise. -/
theorem widgetsOf_step (lib : JSRLib) (hlen : ∀ i o, lib.rejects i o = none) (w : World)
    (h : Nat) (hwf : wf w = true) (hrs : isRangeSlider w h = true) (a : Action) :
    (widgetsOf (step lib w a) h).length =
      (widgetsOf w h).length + if (a == Action.connect h) = true then 1 else 0 := by
  by_cases hc : ∃ host, a = Action.connect host
  · obtain ⟨host, rfl⟩ := hc
    simp only [step]
    by_cases hhost : isRangeSlider w host = true
    · rw [if_pos hhost]
      unfold widgetsOf
      rw [(connectedCallback_accepted lib w host hwf (isRangeSlider_lt w host hhost)
        (hlen _ _)).2, List.filter_append, List.length_append]
      congr 1
      by_cases hh : host = h
      · subst hh
        simp [List.filter]
      · have hne : Action.connect host ≠ Action.connect h := by
          intro heq
          injection heq with heq
          exact hh heq
        have hb : (("update", Callback.onUpdate host) == ("update", Callback.onUpdate h)) =
            false := by
          rw [beq_eq_false_iff_ne]
          intro heq
          simp only [Prod.mk.injEq, Callback.onUpdate.injEq, true_and] at heq
          exact hh heq
        simp [List.filter, hh, hne, hb]
    · rw [if_neg hhost]
      have hne : Action.connect host ≠ Action.connect h := by
        intro heq
        injection heq with heq
        rw [heq] at hhost
        exact hhost hrs
      simp [hne]
  · have hw : (step lib w a).widgets = w.widgets := by
      cases a with
      | create tag => rfl
      | setAttribute n name value => rfl
      | setProperty n name value => rfl
      | listen n type capture handler => rfl
      | insert p c =>
        simp only [step]
        split
        · unfold appendChild
          split
          · rfl
          · exact (insertNode_frame p c w).2.2
        · rfl
      | remove c => exact (removeNode_frame c w).2.2
      | connect host => exact absurd ⟨host, rfl⟩ hc
      | notify jsr type elem value => exact (notify_frame jsr type elem value w).2.1
    have hne : a ≠ Action.connect h := fun heq => hc ⟨h, heq⟩
    unfold widgetsOf
    rw [hw]
    simp [hne]

theorem widgetsOf_run (lib : JSRLib) (hlen : ∀ i o, lib.rejects i o = none) (h : Nat)
    (acts : List Action) :
    ∀ w : World, wf w = true → isRangeSlider w h = true →
      (widgetsOf (run lib w acts) h).length =
        (widgetsOf w h).length + acts.count (Action.connect h) := by
  induction acts with
  | nil => intro w _ _; rfl
  | cons a acts ih =>
    intro w hwf hrs
    show (widgetsOf (run lib (step lib w a) acts) h).length = _
    rw [ih (step lib w a) (wf_step lib w a hwf) (isRangeSlider_step lib w a h hwf hrs),
      widgetsOf_step lib hlen w h hwf hrs a, List.count_cons]
    omega

theorem run_append (lib : JSRLib) (w : World) (xs ys : List Action) :
    run lib w (xs ++ ys) = run lib (run lib w xs) ys := by
  unfold run
  rw [List.foldl_append]

/-- C8: take any state reached from the empty page and continue with any
actions, detachments included.  If `h` was a `range-slider` host in the first
state and the library accepts every construction, the number of widgets relaying
to `h` grows by exactly the number of `connect h` actions.  In the resulting
state every widget, old or new, holds exactly one callback, the `update` relay
of its host, and an `update` notification with value `v` on it appends exactly
one `slide` event with `userSlidTo` = `v` on that host.  No action removes or
alters a widget: after any action the widget list is the old one followed by the
new widgets. -/
theorem widgets_and_listeners_persist (lib : JSRLib) (acts0 acts : List Action) (h : Nat) :
    ((∀ i o, lib.rejects i o = none) → isRangeSlider (run lib World.empty acts0) h = true →
      (widgetsOf (run lib World.empty (acts0 ++ acts)) h).length =
        (widgetsOf (run lib World.empty acts0) h).length + acts.count (Action.connect h)) ∧
      (∀ jsr wd, (run lib World.empty (acts0 ++ acts)).widgets[jsr]? = some wd →
        ∃ host, wd.listeners = [("update", Callback.onUpdate host)] ∧
          ∀ elem v,
            (notify jsr "update" elem v (run lib World.empty (acts0 ++ acts))).dispatched =
              (run lib World.empty (acts0 ++ acts)).dispatched ++
                [(host, { type := "slide", bubbles := false, cancelable := false,
                          composed := false, detail := some [("userSlidTo", v)] })]) ∧
      (∀ a, ∃ ws, (step lib (run lib World.empty (acts0 ++ acts)) a).widgets =
        (run lib World.empty (acts0 ++ acts)).widgets ++ ws) := by
  refine ⟨?_, ?_, fun a => step_widgets_grow lib _ a⟩
  · intro hlen hrs
    rw [run_append]
    exact widgetsOf_run lib hlen h acts _ (wf_run lib acts0 _ wf_empty) hrs
  · intro jsr wd hwd
    have hinv := relayInv_run lib (fun _ => True) (acts0 ++ acts) World.empty
      (fun _ _ => trivial) (relayInv_empty _)
    obtain ⟨host, hl, _⟩ := hinv.1 wd (List.mem_iff_getElem?.2 ⟨jsr, hwd⟩)
    refine ⟨host, hl, fun elem v => ?_⟩
    rw [notify_relay _ jsr wd host hwd hl]
    simp [dispatchEvent, slideEvent]

/-- C8 on the example page: after three attachments with detachments in between
there are three widgets for the host, and the oldest (widget 0) still relays an
update with value 9 as one `slide` event on the host (node 1). -/
theorem widgets_and_listeners_persist_witness :
    (widgetsOf (run JSRLib.lenient World.empty (pageActions ++ reattachActions)) 1).length = 3 ∧
      (notify 0 "update" (JSValue.ref 2) (JSValue.num 9)
          (run JSRLib.lenient World.empty (pageActions ++ reattachActions))).dispatched =
        [(1, { type := "slide", bubbles := false, cancelable := false, composed := false,
               detail := some [("userSlidTo", JSValue.num 9)] })] := by
  have h := widgets_and_listeners_persist JSRLib.lenient pageActions reattachActions 1
  refine ⟨h.1 (fun _ _ => rfl) (by decide), ?_⟩
  obtain ⟨host, hl, hn⟩ := h.2.1 0
    { input := 2,
      options := { max := JSValue.num 10, values := [JSValue.num 3], sliders := 1, grid := false },
      listeners := [("update", Callback.onUpdate 1)] } (by decide)
  have hhost : host = 1 := by
    simp only [List.cons.injEq, Prod.mk.injEq, Callback.onUpdate.injEq, and_true, true_and] at hl
    exact hl.symm
  subst hhost
  exact hn (JSValue.ref 2) (JSValue.num 9)

end PhotoGroove
